import Mathlib

/-!
Verification of the code-mentor retrieval and interview-session core.

The definitions below are a shallow embedding of the JavaScript source:

* `InterviewMode`    embeds `interviewModeService.js` together with the
  `INTERVIEW_MODE` constants from `constants.js`;
* `Faiss`            embeds the deterministic part of `faissService.js`
  (result formatting, threshold filtering, k clamping); the embedding
  provider and the flat-index nearest-neighbour call are external
  collaborators and are passed in as explicit function parameters;
* `Rag`              embeds `ragPipeline.js` (mode configuration,
  context formatting, the fail-soft retrieval wrapper, and the
  config-resolution slice of `analyzeProblem`);
* `Templates`        embeds the response parsers from
  `promptTemplates.js`.

JavaScript strings are modelled as Lean `String`/`List Char`; numeric
timestamps as `Int` (milliseconds); floating similarity scores as `ℚ`
(all claims depend only on ordering, never on rounding); exceptions as
`Except String`.
-/

/-- JavaScript truthiness default for numbers: `x || d` where `x` may be
absent (`none`) or `0` (falsy). -/
def jsOrNat (x : Option Nat) (d : Nat) : Nat :=
  match x with
  | none => d
  | some 0 => d
  | some k => k

theorem jsOrNat_pos (n d : Nat) (h : 0 < n) : jsOrNat (some n) d = n := by
  cases n with
  | zero => omega
  | succ m => rfl

/-- JavaScript truthiness default for strings: `x || d` where `x` may be
absent (`none`) or empty (falsy). -/
def jsOrStr (x : Option String) (d : String) : String :=
  match x with
  | none => d
  | some "" => d
  | some s => s

/-- Lowercasing of a character list, modelling `String.prototype.toLowerCase`. -/
def lowerChars (cs : List Char) : List Char :=
  cs.map Char.toLower

/-- Lowercasing of a string, modelling `String.prototype.toLowerCase`. -/
def lowerStr (s : String) : String :=
  String.mk (lowerChars s.data)

/-- Decide whether `pre` is a prefix of `cs` (case-sensitive literal match). -/
def litPre : List Char → List Char → Bool
  | [], _ => true
  | _ :: _, [] => false
  | p :: ps, c :: cs => if c = p then litPre ps cs else false

/-- Find the least index at which `needle` occurs in `hay` as a contiguous
substring, scanning left to right (the leftmost-match rule of JavaScript
regex literals and of `String.prototype.indexOf`). -/
def findSub (needle : List Char) : List Char → Option Nat
  | [] => if needle = [] then some 0 else none
  | c :: cs =>
    if litPre needle (c :: cs) then some 0
    else match findSub needle cs with
      | some i => some (i + 1)
      | none => none

/-- JavaScript `hay.includes(needle)`. -/
def strIncludes (hay needle : String) : Bool :=
  (findSub needle.data hay.data).isSome

/-- Strip leading and trailing whitespace from a character list. -/
def trimChars (cs : List Char) : List Char :=
  ((cs.dropWhile Char.isWhitespace).reverse.dropWhile Char.isWhitespace).reverse

/-- JavaScript `String.prototype.trim`. -/
def jsTrim (s : String) : String :=
  String.mk (trimChars s.data)

/-- JavaScript `String.prototype.substring(0, n)`. -/
def jsTake (s : String) (n : Nat) : String :=
  String.mk (s.data.take n)

/-- JavaScript `Array.prototype.join(sep)` for string arrays, also used for
the `parts.join` and `contextParts.join` calls of the source. -/
def joinSep (sep : String) : List String → String
  | [] => ""
  | [x] => x
  | x :: y :: rest => x ++ sep ++ joinSep sep (y :: rest)

/-- JavaScript `String.prototype.split(sep)` for a single-character
separator: cut at every occurrence, keeping empty pieces. -/
def splitChar (sep : Char) (cs : List Char) : List (List Char) :=
  match cs with
  | [] => [[]]
  | c :: rest =>
    let groups := splitChar sep rest
    if c = sep then [] :: groups
    else match groups with
      | [] => [[c]]
      | g :: gs => (c :: g) :: gs

namespace InterviewMode

/-- The constant `INTERVIEW_MODE.KEYWORD` from `constants.js`. -/
def KEYWORD : String := "interview mode"

/-- The constant `INTERVIEW_MODE.MAX_GUIDED_QUESTIONS` from `constants.js`. -/
def MAX_GUIDED_QUESTIONS : Nat := 3

/-- The constant `INTERVIEW_MODE.PHASES.UNDERSTANDING`. -/
def UNDERSTANDING : String := "understanding"

/-- The constant `INTERVIEW_MODE.PHASES.APPROACH`. -/
def APPROACH : String := "approach"

/-- The constant `INTERVIEW_MODE.PHASES.OPTIMIZATION`. -/
def OPTIMIZATION : String := "optimization"

/-- The constant `INTERVIEW_MODE.PHASES.REVEAL`. -/
def REVEAL : String := "reveal"

/-- The phase order `Object.values(INTERVIEW_MODE.PHASES)` (object-literal
insertion order). -/
def PHASES : List String := [UNDERSTANDING, APPROACH, OPTIMIZATION, REVEAL]

/-- Match the case-insensitive literal `lit` (given lowercased) at the head
of `cs`; return the remainder on success. -/
def matchLitCI : List Char → List Char → Option (List Char)
  | [], cs => some cs
  | _ :: _, [] => none
  | p :: ps, c :: cs => if c.toLower = p then matchLitCI ps cs else none

/-- Match the regex `interview\s*mode` (flag `i`) at the head of `cs`;
return the remainder after the match.  The greedy `\s*` needs no
backtracking because `m` is not a whitespace character. -/
def matchKeywordAt (cs : List Char) : Option (List Char) := do
  let r1 ← matchLitCI "interview".data cs
  let r2 := r1.dropWhile Char.isWhitespace
  matchLitCI "mode".data r2

/-- Remove every match of `interview\s*mode` (flags `gi`), continuing the
scan after each match, as `String.prototype.replace` with a global regex
and an empty replacement does.  The fuel argument only bounds the
recursion depth; one character of fuel is spent per scan position and a
successful match always consumes at least one character, so any fuel of
at least `cs.length` yields the exact replacement. -/
def removeKeywordGo : Nat → List Char → List Char
  | 0, cs => cs
  | _ + 1, [] => []
  | fuel + 1, c :: rest =>
    match matchKeywordAt (c :: rest) with
    | some r => removeKeywordGo fuel r
    | none => c :: removeKeywordGo fuel rest

/-- The global case-insensitive replacement of `interview\s*mode` by the
empty string, at full fuel. -/
def removeKeywordChars (cs : List Char) : List Char :=
  removeKeywordGo cs.length cs

/-- The problem-text cleanup in `createSession`:
`problem.replace` of the regex `interview\s*mode` (flags gi) by the empty string, then `trim()`. -/
def cleanProblem (problem : String) : String :=
  jsTrim (String.mk (removeKeywordChars problem.data))

/-- One transcript entry of an interview session. -/
structure Turn where
  role : String
  content : String
  timestamp : Int
deriving DecidableEq

/-- The session record built by `InterviewModeService.createSession`. -/
structure Session where
  id : String
  problem : String
  phase : String
  interactions : Nat
  maxInteractions : Nat
  startedAt : Int
  lastActivity : Int
  history : List Turn
deriving DecidableEq

/-- `InterviewModeService.createSession`.  The uuid and the current time
are environment inputs and are passed explicitly. -/
def createSession (sessionId : String) (now : Int) (problem : String) : Session :=
  { id := sessionId
    problem := cleanProblem problem
    phase := UNDERSTANDING
    interactions := 0
    maxInteractions := MAX_GUIDED_QUESTIONS
    startedAt := now
    lastActivity := now
    history := [] }

/-- JavaScript `Array.prototype.indexOf` on a string array: first index of
`x`, or `-1` when absent. -/
def indexOfStr : List String → String → Int
  | [], _ => -1
  | y :: ys, x =>
    if y = x then 0
    else if indexOfStr ys x = -1 then -1 else indexOfStr ys x + 1

/-- The body of `InterviewModeService.updateSession` once the session has
been found: increment the interaction counter, refresh the activity
timestamp, push the optional user turn, then recompute the phase (cap
forces `reveal`; otherwise step one position forward in `PHASES`). -/
def advanceSession (userResponse : String) (now : Int) (s : Session) : Session :=
  let s1 : Session := { s with interactions := s.interactions + 1, lastActivity := now }
  let s2 : Session :=
    if userResponse ≠ "" then
      { s1 with history := s1.history ++ [⟨"user", userResponse, now⟩] }
    else s1
  let currentIndex : Int := indexOfStr PHASES s2.phase
  if (s2.interactions : Int) ≥ (s2.maxInteractions : Int) then
    { s2 with phase := REVEAL }
  else if currentIndex < (PHASES.length : Int) - 1 then
    { s2 with phase := PHASES.getD (currentIndex + 1).toNat "" }
  else s2

/-- The body of `InterviewModeService.addResponse` once the session has
been found: push an assistant turn (the source does not refresh
`lastActivity` here). -/
def addResponseSession (response : String) (now : Int) (s : Session) : Session :=
  { s with history := s.history ++ [⟨"assistant", response, now⟩] }

/-- The body of `InterviewModeService.revealSolution` once the session has
been found: force the phase to `reveal` and refresh the activity
timestamp, without incrementing the counter. -/
def revealSolutionSession (now : Int) (s : Session) : Session :=
  { s with phase := REVEAL, lastActivity := now }

/-- The session mutation performed by `InterviewModeService.getSession`:
refresh the activity timestamp. -/
def touchSession (now : Int) (s : Session) : Session :=
  { s with lastActivity := now }

/-- A Session Manager operation applied to one session, for stating the
lifecycle invariants. -/
inductive Op where
  | advance (userResponse : String)
  | addResponse (response : String)
  | reveal
  | getSession
deriving DecidableEq

/-- Apply one operation at time `now`. -/
def applyOp (now : Int) (op : Op) (s : Session) : Session :=
  match op with
  | .advance u => advanceSession u now s
  | .addResponse r => addResponseSession r now s
  | .reveal => revealSolutionSession now s
  | .getSession => touchSession now s

/-- Run a timestamped operation sequence left to right. -/
def runOps : List (Int × Op) → Session → Session
  | [], s => s
  | (t, op) :: rest, s => runOps rest (applyOp t op s)

/-- Position of the session phase in the fixed phase order (`-1` for a
string outside the order, as `indexOf` returns). -/
def phaseIdx (s : Session) : Int :=
  indexOfStr PHASES s.phase

/-- The session map `this.sessions`, keyed by session id. -/
def SessionMap := List (String × Session)

/-- JavaScript `Map.prototype.get`. -/
def mapLookup : SessionMap → String → Option Session
  | [], _ => none
  | (k, v) :: rest, sid => if k = sid then some v else mapLookup rest sid

/-- In-place mutation of the session object held in the map, modelled as
replacement at the key. -/
def mapSet : SessionMap → String → Session → SessionMap
  | [], _, _ => []
  | (k, v) :: rest, sid, s => if k = sid then (k, s) :: rest else (k, v) :: mapSet rest sid s

/-- `InterviewModeService.updateSession`: null for an unknown id,
otherwise the advanced session together with the updated map. -/
def updateSessionM (sid : String) (userResponse : String) (now : Int)
    (m : SessionMap) : Option Session × SessionMap :=
  match mapLookup m sid with
  | none => (none, m)
  | some s =>
    let s2 := advanceSession userResponse now s
    (some s2, mapSet m sid s2)

/-- The status record returned by `InterviewModeService.getSessionStatus`. -/
structure SessionStatus where
  id : String
  phase : String
  interactions : Nat
  maxInteractions : Nat
  interactionsRemaining : Int
  startedAt : Int
  lastActivity : Int
  historyLength : Nat
deriving DecidableEq

/-- `InterviewModeService.getSessionStatus`: null for an unknown id,
otherwise a projection of the session. -/
def getSessionStatusM (sid : String) (m : SessionMap) : Option SessionStatus :=
  match mapLookup m sid with
  | none => none
  | some s =>
    some { id := s.id
           phase := s.phase
           interactions := s.interactions
           maxInteractions := s.maxInteractions
           interactionsRemaining := max 0 ((s.maxInteractions : Int) - (s.interactions : Int))
           startedAt := s.startedAt
           lastActivity := s.lastActivity
           historyLength := s.history.length }

/-- The constant `this.sessionTimeout` (30 minutes in milliseconds). -/
def sessionTimeout : Int := 30 * 60 * 1000

/-- `InterviewModeService.cleanupExpiredSessions` at time `now`: delete
every session whose elapsed idle time strictly exceeds the timeout. -/
def cleanupExpiredSessions (now : Int) (m : SessionMap) : SessionMap :=
  m.filter (fun e => !(decide (now - e.2.lastActivity > sessionTimeout)))

theorem phases_cases (p : String) :
    p = UNDERSTANDING ∨ p = APPROACH ∨ p = OPTIMIZATION ∨ p = REVEAL ∨
      indexOfStr PHASES p = -1 := by
  by_cases h1 : p = UNDERSTANDING
  · exact Or.inl h1
  by_cases h2 : p = APPROACH
  · exact Or.inr (Or.inl h2)
  by_cases h3 : p = OPTIMIZATION
  · exact Or.inr (Or.inr (Or.inl h3))
  by_cases h4 : p = REVEAL
  · exact Or.inr (Or.inr (Or.inr (Or.inl h4)))
  refine Or.inr (Or.inr (Or.inr (Or.inr ?_)))
  have e1 : (UNDERSTANDING = p) = False := by
    simp [eq_comm] at h1 ⊢; exact h1
  have e2 : (APPROACH = p) = False := by
    simp [eq_comm] at h2 ⊢; exact h2
  have e3 : (OPTIMIZATION = p) = False := by
    simp [eq_comm] at h3 ⊢; exact h3
  have e4 : (REVEAL = p) = False := by
    simp [eq_comm] at h4 ⊢; exact h4
  simp [PHASES, indexOfStr, e1, e2, e3, e4]

theorem phaseIdx_le_three (s : Session) : phaseIdx s ≤ 3 := by
  rcases phases_cases s.phase with h | h | h | h | h
  · simp [phaseIdx, h, PHASES, indexOfStr, UNDERSTANDING, APPROACH, OPTIMIZATION, REVEAL]
  · simp [phaseIdx, h, PHASES, indexOfStr, UNDERSTANDING, APPROACH, OPTIMIZATION, REVEAL]
  · simp [phaseIdx, h, PHASES, indexOfStr, UNDERSTANDING, APPROACH, OPTIMIZATION, REVEAL]
  · simp [phaseIdx, h, PHASES, indexOfStr, UNDERSTANDING, APPROACH, OPTIMIZATION, REVEAL]
  · show indexOfStr PHASES s.phase ≤ 3
    rw [h]; norm_num

theorem phaseIdx_eq_three_iff (s : Session) : phaseIdx s = 3 ↔ s.phase = REVEAL := by
  rcases phases_cases s.phase with h | h | h | h | h
  · simp [phaseIdx, h, PHASES, indexOfStr, UNDERSTANDING, APPROACH, OPTIMIZATION, REVEAL]
  · simp [phaseIdx, h, PHASES, indexOfStr, UNDERSTANDING, APPROACH, OPTIMIZATION, REVEAL]
  · simp [phaseIdx, h, PHASES, indexOfStr, UNDERSTANDING, APPROACH, OPTIMIZATION, REVEAL]
  · simp [phaseIdx, h, PHASES, indexOfStr, UNDERSTANDING, APPROACH, OPTIMIZATION, REVEAL]
  · show indexOfStr PHASES s.phase = 3 ↔ s.phase = REVEAL
    rw [h]
    constructor
    · intro h'; exact absurd h' (by norm_num)
    · intro h'
      rw [h'] at h
      simp [PHASES, indexOfStr, UNDERSTANDING, APPROACH, OPTIMIZATION, REVEAL] at h

theorem advanceSession_fields (u : String) (now : Int) (s : Session) :
    (advanceSession u now s).interactions = s.interactions + 1 ∧
    (advanceSession u now s).maxInteractions = s.maxInteractions ∧
    (advanceSession u now s).phase =
      (if (s.interactions + 1 : Int) ≥ (s.maxInteractions : Int) then REVEAL
       else if indexOfStr PHASES s.phase < (PHASES.length : Int) - 1 then
         PHASES.getD (indexOfStr PHASES s.phase + 1).toNat ""
       else s.phase) := by
  refine ⟨?_, ?_, ?_⟩ <;>
  · simp only [advanceSession]
    split_ifs <;> first | rfl | (exfalso; omega) | simp_all

theorem phaseIdx_advance_mono (u : String) (now : Int) (s : Session) :
    phaseIdx s ≤ phaseIdx (advanceSession u now s) := by
  obtain ⟨-, -, hp⟩ := advanceSession_fields u now s
  simp only [phaseIdx, hp]
  split
  · have := phaseIdx_le_three s
    simp only [phaseIdx] at this
    have hr : indexOfStr PHASES REVEAL = 3 := by
      simp [PHASES, indexOfStr, UNDERSTANDING, APPROACH, OPTIMIZATION, REVEAL]
    omega
  · rcases phases_cases s.phase with h | h | h | h | h
    · simp [h, PHASES, indexOfStr, UNDERSTANDING, APPROACH, OPTIMIZATION, REVEAL]
    · simp [h, PHASES, indexOfStr, UNDERSTANDING, APPROACH, OPTIMIZATION, REVEAL]
    · simp [h, PHASES, indexOfStr, UNDERSTANDING, APPROACH, OPTIMIZATION, REVEAL]
    · simp [h, PHASES, indexOfStr, UNDERSTANDING, APPROACH, OPTIMIZATION, REVEAL]
    · rw [h, if_pos (by simp [PHASES])]
      have h0 : indexOfStr PHASES (PHASES.getD ((-1 + 1 : Int)).toNat "") = 0 := by
        simp [PHASES, indexOfStr, UNDERSTANDING, APPROACH, OPTIMIZATION, REVEAL]
      rw [h0]; norm_num

theorem phaseIdx_applyOp_mono (now : Int) (op : Op) (s : Session) :
    phaseIdx s ≤ phaseIdx (applyOp now op s) := by
  cases op with
  | advance u => exact phaseIdx_advance_mono u now s
  | addResponse r => simp [applyOp, addResponseSession, phaseIdx]
  | reveal =>
    have h3 := phaseIdx_le_three s
    simp only [applyOp, revealSolutionSession, phaseIdx] at *
    simpa [PHASES, indexOfStr, UNDERSTANDING, APPROACH, OPTIMIZATION, REVEAL] using h3
  | getSession => simp [applyOp, touchSession, phaseIdx]

theorem interactions_applyOp_mono (now : Int) (op : Op) (s : Session) :
    s.interactions ≤ (applyOp now op s).interactions := by
  cases op with
  | advance u =>
    obtain ⟨hi, -, -⟩ := advanceSession_fields u now s
    simp [applyOp, hi]
  | addResponse r => simp [applyOp, addResponseSession]
  | reveal => simp [applyOp, revealSolutionSession]
  | getSession => simp [applyOp, touchSession]

theorem runOps_mono :
    ∀ (ops : List (Int × Op)) (s : Session),
      s.interactions ≤ (runOps ops s).interactions ∧
      phaseIdx s ≤ phaseIdx (runOps ops s)
  | [], s => by simp [runOps]
  | (t, op) :: rest, s => by
    have hstep1 := interactions_applyOp_mono t op s
    have hstep2 := phaseIdx_applyOp_mono t op s
    have hrest := runOps_mono rest (applyOp t op s)
    exact ⟨le_trans hstep1 hrest.1, le_trans hstep2 hrest.2, ⟩

end InterviewMode

/-- C1: for a session created with `createSession("interview mode: reverse a
list")`, the stored problem text has the trigger phrase removed and the
session starts in phase `understanding` with interaction counter `0`; three
successive `updateSession` calls move the phase through `approach`, then
`optimization`, then `reveal`, leaving the counter at `3`, and a fourth
`updateSession` leaves the phase at `reveal`. -/
theorem C1_interview_session_walkthrough :
    (InterviewMode.createSession "sid" 0 "interview mode: reverse a list").problem
        = ": reverse a list" ∧
    strIncludes
      (lowerStr (InterviewMode.createSession "sid" 0 "interview mode: reverse a list").problem)
      InterviewMode.KEYWORD = false ∧
    (InterviewMode.createSession "sid" 0 "interview mode: reverse a list").phase
        = InterviewMode.UNDERSTANDING ∧
    (InterviewMode.createSession "sid" 0 "interview mode: reverse a list").interactions = 0 ∧
    ((InterviewMode.updateSessionM "sid" "" 1
        [("sid", InterviewMode.createSession "sid" 0 "interview mode: reverse a list")]).1.map
      InterviewMode.Session.phase) = some InterviewMode.APPROACH ∧
    ((InterviewMode.updateSessionM "sid" "" 2
        (InterviewMode.updateSessionM "sid" "" 1
          [("sid", InterviewMode.createSession "sid" 0 "interview mode: reverse a list")]).2).1.map
      InterviewMode.Session.phase) = some InterviewMode.OPTIMIZATION ∧
    ((InterviewMode.updateSessionM "sid" "" 3
        (InterviewMode.updateSessionM "sid" "" 2
          (InterviewMode.updateSessionM "sid" "" 1
            [("sid", InterviewMode.createSession "sid" 0 "interview mode: reverse a list")]).2).2).1.map
      InterviewMode.Session.phase) = some InterviewMode.REVEAL ∧
    ((InterviewMode.updateSessionM "sid" "" 3
        (InterviewMode.updateSessionM "sid" "" 2
          (InterviewMode.updateSessionM "sid" "" 1
            [("sid", InterviewMode.createSession "sid" 0 "interview mode: reverse a list")]).2).2).1.map
      InterviewMode.Session.interactions) = some 3 ∧
    ((InterviewMode.updateSessionM "sid" "" 4
        (InterviewMode.updateSessionM "sid" "" 3
          (InterviewMode.updateSessionM "sid" "" 2
            (InterviewMode.updateSessionM "sid" "" 1
              [("sid", InterviewMode.createSession "sid" 0 "interview mode: reverse a list")]).2).2).2).1.map
      InterviewMode.Session.phase) = some InterviewMode.REVEAL := by
  decide

/-- C2: along any sequence of Session Manager operations the interaction
counter never decreases and the phase position in the fixed order never
moves backward; once in `reveal` the phase stays `reveal`; an advance that
reaches the interaction cap sets the phase to `reveal` immediately, and an
explicit reveal request sets it to `reveal` from any position. -/
theorem C2_session_manager_invariants
    (s : InterviewMode.Session) (ops : List (Int × InterviewMode.Op)) :
    s.interactions ≤ (InterviewMode.runOps ops s).interactions ∧
    InterviewMode.phaseIdx s ≤ InterviewMode.phaseIdx (InterviewMode.runOps ops s) ∧
    (s.phase = InterviewMode.REVEAL →
      (InterviewMode.runOps ops s).phase = InterviewMode.REVEAL) ∧
    (∀ (u : String) (now : Int),
      s.interactions + 1 ≥ s.maxInteractions →
      (InterviewMode.advanceSession u now s).phase = InterviewMode.REVEAL) ∧
    (∀ (now : Int),
      (InterviewMode.revealSolutionSession now s).phase = InterviewMode.REVEAL) := by
  obtain ⟨h1, h2⟩ := InterviewMode.runOps_mono ops s
  refine ⟨h1, h2, ?_, ?_, ?_⟩
  · intro hrev
    have hs3 : InterviewMode.phaseIdx s = 3 := (InterviewMode.phaseIdx_eq_three_iff s).mpr hrev
    have hle := InterviewMode.phaseIdx_le_three (InterviewMode.runOps ops s)
    exact (InterviewMode.phaseIdx_eq_three_iff (InterviewMode.runOps ops s)).mp (by omega)
  · intro u now hcap
    obtain ⟨-, -, hp⟩ := InterviewMode.advanceSession_fields u now s
    rw [hp]
    have : ((s.interactions + 1 : Int)) ≥ (s.maxInteractions : Int) := by exact_mod_cast hcap
    simp [this]
  · intro now
    simp [InterviewMode.revealSolutionSession]

/-- Witness for C2: a concrete reveal-phase session at the interaction cap,
with a concrete operation sequence. -/
theorem C2_session_manager_invariants_witness :
    (InterviewMode.runOps [(1, InterviewMode.Op.advance "x"), (2, InterviewMode.Op.getSession)]
      { id := "w", problem := "p", phase := "reveal", interactions := 3, maxInteractions := 3,
        startedAt := 0, lastActivity := 0, history := [] }).phase = InterviewMode.REVEAL ∧
    (InterviewMode.advanceSession "y" 5
      { id := "w", problem := "p", phase := "reveal", interactions := 3, maxInteractions := 3,
        startedAt := 0, lastActivity := 0, history := [] }).phase = InterviewMode.REVEAL := by
  have h := C2_session_manager_invariants
    { id := "w", problem := "p", phase := "reveal", interactions := 3, maxInteractions := 3,
      startedAt := 0, lastActivity := 0, history := [] }
    [(1, InterviewMode.Op.advance "x"), (2, InterviewMode.Op.getSession)]
  exact ⟨h.2.2.1 rfl, h.2.2.2.1 "y" 5 (by decide)⟩

namespace InterviewMode

theorem mapLookup_none_of_not_mem_keys :
    ∀ (m : SessionMap) (sid : String), sid ∉ m.map Prod.fst → mapLookup m sid = none
  | [], _, _ => rfl
  | (k, v) :: rest, sid, h => by
    simp only [List.map_cons, List.mem_cons] at h
    push_neg at h
    have hk : ¬(k = sid) := fun he => h.1 he.symm
    simp only [mapLookup, if_neg hk]
    exact mapLookup_none_of_not_mem_keys rest sid h.2

theorem mapLookup_filter_none_of_none (p : String × Session → Bool) :
    ∀ (m : SessionMap) (sid : String), mapLookup m sid = none →
      mapLookup (m.filter p) sid = none
  | [], _, _ => rfl
  | (k, v) :: rest, sid, h => by
    simp only [mapLookup] at h
    split at h
    · exact absurd h (by simp)
    · rename_i hk
      by_cases hp : p (k, v)
      · simpa [List.filter, hp, mapLookup, hk] using
          mapLookup_filter_none_of_none p rest sid h
      · simpa [List.filter, hp] using mapLookup_filter_none_of_none p rest sid h

theorem mapLookup_cleanup_none (now : Int) (sid : String) (s : Session) :
    ∀ (m : SessionMap), (m.map Prod.fst).Nodup → mapLookup m sid = some s →
      now - s.lastActivity > sessionTimeout →
      mapLookup (cleanupExpiredSessions now m) sid = none
  | [], _, hfind, _ => by simp [mapLookup] at hfind
  | (k, v) :: rest, hnd, hfind, hexp => by
    simp only [List.map_cons, List.nodup_cons] at hnd
    simp only [mapLookup] at hfind
    by_cases hk : k = sid
    · rw [if_pos hk] at hfind
      have hv : v = s := by injection hfind
      have hnone : mapLookup rest sid = none :=
        mapLookup_none_of_not_mem_keys rest sid (hk ▸ hnd.1)
      have hfiltered := mapLookup_filter_none_of_none
        (fun e => !(decide (now - e.2.lastActivity > sessionTimeout))) rest sid hnone
      simp only [cleanupExpiredSessions, List.filter_cons]
      rw [if_neg (by simp [hv, hexp])]
      exact hfiltered
    · rw [if_neg hk] at hfind
      have hrest := mapLookup_cleanup_none now sid s rest hnd.2 hfind hexp
      simp only [cleanupExpiredSessions, List.filter_cons] at hrest ⊢
      by_cases hkeep : now - v.lastActivity > sessionTimeout
      · rw [if_neg (by simp [hkeep])]
        exact hrest
      · rw [if_pos (by simp [hkeep])]
        simp only [mapLookup, if_neg hk]
        exact hrest

end InterviewMode

/-- C9: a session whose last-activity timestamp is older than the session
timeout is absent after the expiry sweep runs, and `updateSession` and
`getSessionStatus` on its identifier then return null. -/
theorem C9_expired_session_not_found
    (m : InterviewMode.SessionMap) (sid : String) (s : InterviewMode.Session)
    (now now2 : Int) (u : String)
    (hnd : (m.map Prod.fst).Nodup)
    (hfind : InterviewMode.mapLookup m sid = some s)
    (hexp : now - s.lastActivity > InterviewMode.sessionTimeout) :
    InterviewMode.mapLookup (InterviewMode.cleanupExpiredSessions now m) sid = none ∧
    (InterviewMode.updateSessionM sid u now2
      (InterviewMode.cleanupExpiredSessions now m)).1 = none ∧
    InterviewMode.getSessionStatusM sid
      (InterviewMode.cleanupExpiredSessions now m) = none := by
  have hnone := InterviewMode.mapLookup_cleanup_none now sid s m hnd hfind hexp
  refine ⟨hnone, ?_, ?_⟩
  · simp [InterviewMode.updateSessionM, hnone]
  · simp [InterviewMode.getSessionStatusM, hnone]

namespace Faiss

/-- A corpus document, with the fields read by `faissService.js` and
`ragPipeline.js`.  Absent optional JavaScript fields are modelled by the
falsy empty string or empty list, matching how the source reads them
through optional chaining and truthiness defaults. -/
structure Document where
  title : String
  difficulty : String
  tags : List String
  problem : String
  approach : String
  complexity : String
deriving DecidableEq

/-- One search result pushed by `FAISSService.search`. -/
structure SearchResult where
  document : Document
  score : ℚ
  rank : Nat
deriving DecidableEq

/-- The raw `{labels, distances}` pair returned by the flat-index
nearest-neighbour call (`this.index.search`).  The two lists have equal
length in the library; the embedding walks them in lockstep. -/
structure FaissRaw where
  labels : List Int
  distances : List ℚ
deriving DecidableEq

/-- The result-formatting loop of `FAISSService.search` (lines 191 to 205):
walk the label/distance pairs, keep the in-range labels with the parallel
document, and assign the 1-based loop position as rank (the loop counter
advances even across dropped labels). -/
def formatGo : List (Int × ℚ) → List Document → Nat → List SearchResult
  | [], _, _ => []
  | (idx, score) :: rest, documents, i =>
    if h : 0 ≤ idx ∧ idx < (documents.length : Int) then
      { document := documents.get ⟨idx.toNat, by omega⟩, score := score, rank := i + 1 } ::
        formatGo rest documents (i + 1)
    else
      formatGo rest documents (i + 1)

/-- Format a raw index result against the parallel document list. -/
def formatResults (raw : FaissRaw) (documents : List Document) : List SearchResult :=
  formatGo (raw.labels.zip raw.distances) documents 0

/-- The threshold filter of `FAISSService.search`
(`results.filter(r => r.score >= threshold)`). -/
def filterByThreshold (threshold : ℚ) (results : List SearchResult) : List SearchResult :=
  results.filter (fun r => decide (r.score ≥ threshold))

/-- The service state read by `search`: the parallel document list and the
configured `topK` and `similarityThreshold`. -/
structure FaissConfig where
  documents : List Document
  topK : Nat
  similarityThreshold : ℚ
deriving DecidableEq

/-- `FAISSService.search`.  The embedding provider (together with the
floating-point `normalizeVector`) and the flat-index nearest-neighbour
scan are external collaborators, passed as `embedNorm` and `idxSearch`;
`embedNorm` returning an error models an embedding exception, which the
catch of the source turns into an empty result list.  The second
component of the value counts how many times the embedding provider was
invoked.  `kOpt = none` models calling `search(query)` with the `k`
argument defaulted; `some 0` is falsy in `k = k || this.topK`. -/
def search (cfg : FaissConfig)
    (embedNorm : String → Except String (List ℚ))
    (idxSearch : List ℚ → Nat → FaissRaw)
    (query : String) (kOpt : Option Nat) : List SearchResult × Nat :=
  if cfg.documents.length = 0 then ([], 0)
  else
    let k0 := jsOrNat kOpt cfg.topK
    let k := Nat.min k0 cfg.documents.length
    match embedNorm query with
    | .error _ => ([], 1)
    | .ok qvec =>
      (filterByThreshold cfg.similarityThreshold
        (formatResults (idxSearch qvec k) cfg.documents), 1)

theorem formatGo_document_mem :
    ∀ (pairs : List (Int × ℚ)) (documents : List Document) (i : Nat),
      ∀ r ∈ formatGo pairs documents i,
        ∃ (j : Nat) (h : j < documents.length), r.document = documents.get ⟨j, h⟩
  | [], _, _, r, hr => by simp [formatGo] at hr
  | (idx, score) :: rest, documents, i, r, hr => by
    simp only [formatGo] at hr
    split at hr
    · rename_i h
      rcases List.mem_cons.mp hr with hhead | htail
      · exact ⟨idx.toNat, by omega, by rw [hhead]⟩
      · exact formatGo_document_mem rest documents (i + 1) r htail
    · exact formatGo_document_mem rest documents (i + 1) r hr

end Faiss

/-- C3: for a fixed query, corpus and index behaviour, `search` never
returns a result whose similarity score is below the configured
threshold, and the returned set is antitone in the threshold: raising the
threshold from `t1` to `t2` can only remove results, so every result
returned at `t2` is also returned at `t1`. -/
theorem C3_search_threshold_filter
    (cfg : Faiss.FaissConfig)
    (embedNorm : String → Except String (List ℚ))
    (idxSearch : List ℚ → Nat → Faiss.FaissRaw)
    (query : String) (kOpt : Option Nat) :
    (∀ r ∈ (Faiss.search cfg embedNorm idxSearch query kOpt).1,
      r.score ≥ cfg.similarityThreshold) ∧
    (∀ t1 t2 : ℚ, t1 ≤ t2 →
      ∀ r ∈ (Faiss.search { cfg with similarityThreshold := t2 }
        embedNorm idxSearch query kOpt).1,
        r ∈ (Faiss.search { cfg with similarityThreshold := t1 }
          embedNorm idxSearch query kOpt).1) := by
  constructor
  · intro r hr
    simp only [Faiss.search] at hr
    split at hr
    · simp at hr
    · split at hr
      · simp at hr
      · simp only [Faiss.filterByThreshold, List.mem_filter, decide_eq_true_eq] at hr
        exact hr.2
  · intro t1 t2 ht r hr
    simp only [Faiss.search] at hr ⊢
    split at hr
    · simp at hr
    · rename_i hne
      rw [if_neg hne]
      split at hr
      · simp at hr
      · simp only [Faiss.filterByThreshold, List.mem_filter, decide_eq_true_eq] at hr ⊢
        exact ⟨hr.1, le_trans ht hr.2⟩

/-- The concrete one-document corpus used by the witnesses below. -/
def twoSumDoc : Faiss.Document :=
  { title := "Two Sum", difficulty := "Easy", tags := ["array"],
    problem := "p", approach := "a", complexity := "c" }

/-- A concrete service state over `twoSumDoc` at an integer threshold. -/
def twoSumCfg (t : ℚ) : Faiss.FaissConfig :=
  { documents := [twoSumDoc], topK := 5, similarityThreshold := t }

/-- A stub embedding provider that always succeeds. -/
def stubEmbed : String → Except String (List ℚ) := fun _ => Except.ok [1]

/-- A stub index scan returning label 0 with score 2. -/
def stubIdxSearch : List ℚ → Nat → Faiss.FaissRaw :=
  fun _ _ => { labels := [0], distances := [2] }

/-- Witness for C3: a one-document corpus whose single raw result scores
2, filtered at thresholds 1 and 2. -/
theorem C3_search_threshold_filter_witness :
    ({ document := twoSumDoc, score := 2, rank := 1 } : Faiss.SearchResult).score ≥ (1 : ℚ) ∧
    ({ document := twoSumDoc, score := 2, rank := 1 } : Faiss.SearchResult) ∈
      (Faiss.search (twoSumCfg 1) stubEmbed stubIdxSearch "q" none).1 := by
  constructor
  · exact (C3_search_threshold_filter (twoSumCfg 1) stubEmbed stubIdxSearch "q" none).1
      _ (by decide)
  · exact (C3_search_threshold_filter (twoSumCfg 0) stubEmbed stubIdxSearch "q" none).2
      1 2 (by decide) _ (by decide)

/-- C10: a requested `k` larger than the stored document count behaves
exactly as `k` equal to the document count; an empty store returns the
empty result without invoking the embedding provider; and every returned
result carries a document read from a valid index of the parallel
document list. -/
theorem C10_search_bounds
    (cfg : Faiss.FaissConfig)
    (embedNorm : String → Except String (List ℚ))
    (idxSearch : List ℚ → Nat → Faiss.FaissRaw)
    (query : String) (kOpt : Option Nat) :
    (∀ k : Nat, k > cfg.documents.length →
      Faiss.search cfg embedNorm idxSearch query (some k) =
        Faiss.search cfg embedNorm idxSearch query (some cfg.documents.length)) ∧
    (cfg.documents = [] →
      Faiss.search cfg embedNorm idxSearch query kOpt = ([], 0)) ∧
    (∀ r ∈ (Faiss.search cfg embedNorm idxSearch query kOpt).1,
      ∃ (j : Nat) (h : j < cfg.documents.length),
        r.document = cfg.documents.get ⟨j, h⟩) := by
  refine ⟨?_, ?_, ?_⟩
  · intro k hk
    simp only [Faiss.search]
    split
    · rfl
    · rename_i hne
      have hn : 0 < cfg.documents.length := Nat.pos_of_ne_zero hne
      have h1 : jsOrNat (some k) cfg.topK = k := jsOrNat_pos k cfg.topK (by omega)
      have h2 : jsOrNat (some cfg.documents.length) cfg.topK = cfg.documents.length :=
        jsOrNat_pos cfg.documents.length cfg.topK hn
      have hmin : Nat.min k cfg.documents.length =
          Nat.min cfg.documents.length cfg.documents.length := by
        simp only [Nat.min_def]
        split_ifs <;> omega
      rw [h1, h2, hmin]
  · intro hempty
    simp [Faiss.search, hempty]
  · intro r hr
    simp only [Faiss.search] at hr
    split at hr
    · simp at hr
    · split at hr
      · simp at hr
      · simp only [Faiss.filterByThreshold, List.mem_filter] at hr
        exact Faiss.formatGo_document_mem _ cfg.documents 0 r hr.1

/-- Witness for C10: the one-document corpus searched with k = 7, and the
empty corpus searched through the same stubs. -/
theorem C10_search_bounds_witness :
    Faiss.search (twoSumCfg 0) stubEmbed stubIdxSearch "q" (some 7) =
      Faiss.search (twoSumCfg 0) stubEmbed stubIdxSearch "q" (some 1) ∧
    Faiss.search { documents := [], topK := 5, similarityThreshold := 0 }
      stubEmbed stubIdxSearch "q" (some 7) = ([], 0) := by
  constructor
  · exact (C10_search_bounds (twoSumCfg 0) stubEmbed stubIdxSearch "q" none).1 7 (by decide)
  · exact (C10_search_bounds { documents := [], topK := 5, similarityThreshold := 0 }
      stubEmbed stubIdxSearch "q" (some 7)).2.1 rfl

namespace Rag

/-- One mode parameter bundle from `getModeConfig` in `ragPipeline.js`. -/
structure ModeConfig where
  maxTokens : Nat
  temperature : ℚ
  topK : Nat
  contextFormat : String
deriving DecidableEq

/-- The environment variables read by `ragPipeline.js`, already parsed:
`parseInt`/`parseFloat` failures and unset variables are `none` (both are
falsy in the `||` defaults of the source). -/
structure EnvConfig where
  llmQuickMaxTokens : Option Nat := none
  llmMaxTokens : Option Nat := none
  ragTopK : Option Nat := none
  interviewModeKeyword : Option String := none
deriving DecidableEq

/-- `getModeConfig` from `ragPipeline.js`: the three named bundles, any
other mode string falling back to `detailed`. -/
def getModeConfig (env : EnvConfig) (mode : String) : ModeConfig :=
  if mode = "quick" then
    { maxTokens := jsOrNat env.llmQuickMaxTokens 600, temperature := 2/10,
      topK := 1, contextFormat := "minimal" }
  else if mode = "detailed" then
    { maxTokens := jsOrNat env.llmMaxTokens 1200, temperature := 3/10,
      topK := jsOrNat env.ragTopK 2, contextFormat := "full" }
  else if mode = "interview" then
    { maxTokens := 600, temperature := 5/10, topK := 2, contextFormat := "hints" }
  else
    { maxTokens := jsOrNat env.llmMaxTokens 1200, temperature := 3/10,
      topK := jsOrNat env.ragTopK 2, contextFormat := "full" }

/-- One entry of the `sources` array built by `retrieveContext`. -/
structure SourceInfo where
  title : String
  score : ℚ
  difficulty : String
  tags : List String
deriving DecidableEq

/-- The `{context, sources}` value returned by `retrieveContext`. -/
structure ContextResult where
  context : String
  sources : List SourceInfo
deriving DecidableEq

/-- The tag rendering of the source (join the tags with comma-space, with
the N/A fallback; an absent or empty tag list joins to the falsy empty
string). -/
def tagsNA (d : Faiss.Document) : String :=
  if joinSep ", " d.tags = "" then "N/A" else joinSep ", " d.tags

/-- One `minimal`-format context line:
title, difficulty and the first 200 characters of the approach. -/
def minimalLine (d : Faiss.Document) : String :=
  d.title ++ " (" ++ d.difficulty ++ "): " ++
    (if d.approach = "" then "N/A" else jsTake d.approach 200)

/-- One `hints`-format context line: title and tag list only. -/
def hintsLine (d : Faiss.Document) : String :=
  "Similar: " ++ d.title ++ " - Tags: " ++ tagsNA d

/-- One `full`-format context block: title, difficulty, tags, and problem
and approach truncated to the chunk size. -/
def fullBlock (chunkSize : Nat) (d : Faiss.Document) : String :=
  "\n### " ++ d.title ++ " (" ++ d.difficulty ++ ")\n**Tags:** " ++ tagsNA d ++
    "\n**Problem:** " ++ (if d.problem = "" then "" else jsTake d.problem chunkSize) ++
    "\n**Approach:** " ++ (if d.approach = "" then "N/A" else jsTake d.approach chunkSize)

/-- The per-result source entry of `retrieveContext`. -/
def mkSource (r : Faiss.SearchResult) : SourceInfo :=
  { title := r.document.title, score := r.score,
    difficulty := r.document.difficulty, tags := r.document.tags }

/-- The formatting half of `RAGPipeline.retrieveContext` (lines 137 to
183): empty results give the empty context, otherwise the parts of the
selected format are joined by the delimiter line and the sources list is
projected from the results. -/
def formatContext (chunkSize : Nat) (contextFormat : String)
    (results : List Faiss.SearchResult) : ContextResult :=
  if results.length = 0 then { context := "", sources := [] }
  else
    let contextParts :=
      if contextFormat = "minimal" then results.map (fun r => minimalLine r.document)
      else if contextFormat = "hints" then results.map (fun r => hintsLine r.document)
      else results.map (fun r => fullBlock chunkSize r.document)
    { context := joinSep "\n---\n" contextParts, sources := results.map mkSource }

/-- The options object accepted by `retrieveContext`. -/
structure RetrieveOptions where
  topK : Option Nat := none
  contextFormat : Option String := none
deriving DecidableEq

/-- The pipeline fields read by `retrieveContext`. -/
structure PipelineConfig where
  topK : Nat
  chunkSize : Nat
deriving DecidableEq

/-- `RAGPipeline.retrieveContext`.  The call
`faissService.search(query, topK)` is passed as the `searchFn`
collaborator; an `error` value models any exception thrown inside the
`try` block (embedding, index, or otherwise), which the catch of the
source converts into the empty context with empty sources. -/
def retrieveContext (cfg : PipelineConfig)
    (searchFn : String → Nat → Except String (List Faiss.SearchResult))
    (query : String) (options : RetrieveOptions) : ContextResult :=
  let topK := jsOrNat options.topK cfg.topK
  let contextFormat := jsOrStr options.contextFormat "full"
  match searchFn query topK with
  | .error _ => { context := "", sources := [] }
  | .ok results => formatContext cfg.chunkSize contextFormat results

/-- Replace the solving-strategy fields (approach and problem text) of a
result document by the empty string, keeping title, difficulty, tags,
complexity, score and rank.  Two result lists with equal images under
this map are identical except in strategy content. -/
def scrubStrategy (r : Faiss.SearchResult) : Faiss.SearchResult :=
  { r with document := { r.document with approach := "", problem := "" } }

theorem hintsLine_scrub {r1 r2 : Faiss.SearchResult}
    (h : scrubStrategy r1 = scrubStrategy r2) :
    hintsLine r1.document = hintsLine r2.document := by
  have ht : r1.document.title = r2.document.title :=
    congrArg (fun r => r.document.title) h
  have htags : r1.document.tags = r2.document.tags :=
    congrArg (fun r => r.document.tags) h
  simp [hintsLine, tagsNA, ht, htags]

theorem hintsParts_scrub :
    ∀ (rs1 rs2 : List Faiss.SearchResult),
      rs1.map scrubStrategy = rs2.map scrubStrategy →
      rs1.map (fun r => hintsLine r.document) = rs2.map (fun r => hintsLine r.document)
  | [], [], _ => rfl
  | [], _ :: _, h => by simp at h
  | _ :: _, [], h => by simp at h
  | r1 :: rest1, r2 :: rest2, h => by
    simp only [List.map_cons, List.cons.injEq] at h ⊢
    exact ⟨hintsLine_scrub h.1, hintsParts_scrub rest1 rest2 h.2⟩

/-- The analyze options read by `analyzeProblem`. -/
structure AnalyzeOptions where
  mode : Option String := none
  revealSolution : Bool := false
  phase : Option String := none
deriving DecidableEq

/-- The sampling parameters handed to the completion provider. -/
structure LlmOptions where
  temperature : ℚ
  maxTokens : Nat
deriving DecidableEq

/-- The decisions taken by the first half of `RAGPipeline.analyzeProblem`
(lines 201 to 239): the resolved mode, interview detection, the effective
parameter bundle, the options handed to `retrieveContext`, the sampling
options handed to the completion call, and whether the interview prompt
is used instead of the analysis prompt. -/
structure AnalyzePlan where
  mode : String
  isInterviewMode : Bool
  effectiveConfig : ModeConfig
  retrieveOptions : RetrieveOptions
  llmOptions : LlmOptions
  useInterviewPrompt : Bool
deriving DecidableEq

/-- The interview keyword
read from `process.env.INTERVIEW_MODE_KEYWORD` lowercased, defaulting to
the phrase interview mode when unset or empty. -/
def effectiveKeyword (env : EnvConfig) : String :=
  jsOrStr (env.interviewModeKeyword.map lowerStr) "interview mode"

/-- The config-resolution slice of `RAGPipeline.analyzeProblem`: resolve
the mode (default `detailed`), detect interview intent from the explicit
mode or from the keyword contained case-insensitively in the problem
text, switch to the interview bundle when detected, and derive the
retrieval and generation parameters from the effective bundle. -/
def analyzePlan (env : EnvConfig) (problem : String) (options : AnalyzeOptions) :
    AnalyzePlan :=
  let mode := jsOrStr options.mode "detailed"
  let modeConfig := getModeConfig env mode
  let isInterviewMode :=
    (mode == "interview") || strIncludes (lowerStr problem) (effectiveKeyword env)
  let effectiveConfig := if isInterviewMode then getModeConfig env "interview" else modeConfig
  { mode := mode
    isInterviewMode := isInterviewMode
    effectiveConfig := effectiveConfig
    retrieveOptions := { topK := some effectiveConfig.topK,
                         contextFormat := some effectiveConfig.contextFormat }
    llmOptions := { temperature := effectiveConfig.temperature,
                    maxTokens := effectiveConfig.maxTokens }
    useInterviewPrompt := isInterviewMode && !options.revealSolution }

end Rag

/-- C4: the hints-format context depends only on the title and tag list
of each result document; two result lists identical except in their approach
and problem texts render to the same hints context, so the approach text
of a source document never reaches an interview-mode prompt through this
format. -/
theorem C4_hints_format_no_strategy_leak
    (chunkSize : Nat) (rs1 rs2 : List Faiss.SearchResult)
    (h : rs1.map Rag.scrubStrategy = rs2.map Rag.scrubStrategy) :
    (Rag.formatContext chunkSize "hints" rs1).context =
      (Rag.formatContext chunkSize "hints" rs2).context := by
  have hlen : rs1.length = rs2.length := by
    have := congrArg List.length h
    simpa using this
  have hparts := Rag.hintsParts_scrub rs1 rs2 h
  by_cases h0 : rs1.length = 0
  · have h0' : rs2.length = 0 := by omega
    simp [Rag.formatContext, h0, h0']
  · have h0' : ¬ rs2.length = 0 := by omega
    simp only [Rag.formatContext, if_neg h0, if_neg h0']
    simp [hparts]

/-- Witness for C4: two one-result lists over documents that differ only
in the approach and problem fields. -/
theorem C4_hints_format_no_strategy_leak_witness :
    (Rag.formatContext 500 "hints"
      [{ document := { title := "Two Sum", difficulty := "Easy", tags := ["array", "hashmap"],
                       problem := "find two numbers", approach := "use a hash map",
                       complexity := "O(n)" },
         score := 2, rank := 1 }]).context =
    (Rag.formatContext 500 "hints"
      [{ document := { title := "Two Sum", difficulty := "Easy", tags := ["array", "hashmap"],
                       problem := "other text", approach := "sort and scan",
                       complexity := "O(n)" },
         score := 2, rank := 1 }]).context :=
  C4_hints_format_no_strategy_leak 500
    [{ document := { title := "Two Sum", difficulty := "Easy", tags := ["array", "hashmap"],
                     problem := "find two numbers", approach := "use a hash map",
                     complexity := "O(n)" },
       score := 2, rank := 1 }]
    [{ document := { title := "Two Sum", difficulty := "Easy", tags := ["array", "hashmap"],
                     problem := "other text", approach := "sort and scan",
                     complexity := "O(n)" },
       score := 2, rank := 1 }]
    (by decide)

/-- C7: whenever the retrieval operation inside `retrieveContext` fails
with any exception, the function returns the empty context and the empty
sources list instead of propagating the error. -/
theorem C7_retrieveContext_fails_soft
    (cfg : Rag.PipelineConfig)
    (searchFn : String → Nat → Except String (List Faiss.SearchResult))
    (query : String) (options : Rag.RetrieveOptions) (e : String)
    (h : searchFn query (jsOrNat options.topK cfg.topK) = Except.error e) :
    Rag.retrieveContext cfg searchFn query options = { context := "", sources := [] } := by
  simp only [Rag.retrieveContext, h]

/-- Witness for C7: a retrieval collaborator that always throws. -/
theorem C7_retrieveContext_fails_soft_witness :
    Rag.retrieveContext { topK := 2, chunkSize := 500 }
      (fun _ _ => Except.error "embedding backend down") "two sum" {} =
      { context := "", sources := [] } :=
  C7_retrieveContext_fails_soft { topK := 2, chunkSize := 500 }
    (fun _ _ => Except.error "embedding backend down") "two sum" {}
    "embedding backend down" rfl

/-- C8: `analyzeProblem` detects interview intent exactly when the
resolved mode is `interview` or the trigger keyword occurs
case-insensitively in the problem text; when detected and the caller has
not requested `revealSolution`, the interview parameter bundle drives
both retrieval (topK and context format) and generation (temperature and
max tokens), regardless of the nominally requested mode, and the
interview prompt is used. -/
theorem C8_interview_intent_detection
    (env : Rag.EnvConfig) (problem : String) (options : Rag.AnalyzeOptions) :
    ((Rag.analyzePlan env problem options).isInterviewMode = true ↔
      (jsOrStr options.mode "detailed" = "interview" ∨
        strIncludes (lowerStr problem) (Rag.effectiveKeyword env) = true)) ∧
    ((Rag.analyzePlan env problem options).isInterviewMode = true →
      options.revealSolution = false →
      (Rag.analyzePlan env problem options).effectiveConfig =
        Rag.getModeConfig env "interview" ∧
      (Rag.analyzePlan env problem options).retrieveOptions =
        { topK := some (Rag.getModeConfig env "interview").topK,
          contextFormat := some (Rag.getModeConfig env "interview").contextFormat } ∧
      (Rag.analyzePlan env problem options).llmOptions =
        { temperature := (Rag.getModeConfig env "interview").temperature,
          maxTokens := (Rag.getModeConfig env "interview").maxTokens } ∧
      (Rag.analyzePlan env problem options).useInterviewPrompt = true) := by
  constructor
  · simp [Rag.analyzePlan, Bool.or_eq_true, beq_iff_eq]
  · intro hdet hrev
    simp only [Rag.analyzePlan] at hdet ⊢
    rw [hdet]
    refine ⟨rfl, rfl, rfl, ?_⟩
    simp [hrev]

/-- Witness for C8: a problem text containing the trigger phrase in mixed
case, requested in `quick` mode without `revealSolution`. -/
theorem C8_interview_intent_detection_witness :
    (Rag.analyzePlan {} "Interview MODE: reverse a linked list"
      { mode := some "quick", revealSolution := false, phase := none }).effectiveConfig =
      Rag.getModeConfig {} "interview" ∧
    (Rag.analyzePlan {} "Interview MODE: reverse a linked list"
      { mode := some "quick", revealSolution := false, phase := none }).useInterviewPrompt
      = true := by
  have h := C8_interview_intent_detection {} "Interview MODE: reverse a linked list"
    { mode := some "quick", revealSolution := false, phase := none }
  have hdet : (Rag.analyzePlan {} "Interview MODE: reverse a linked list"
      { mode := some "quick", revealSolution := false, phase := none }).isInterviewMode
      = true := by
    exact h.1.mpr (Or.inr (by decide))
  obtain ⟨hc, -, -, hp⟩ := h.2 hdet rfl
  exact ⟨hc, hp⟩

/-- Witness for C9: a one-session map idle for 2000000 ms, beyond the
1800000 ms timeout. -/
theorem C9_expired_session_not_found_witness :
    InterviewMode.mapLookup
      (InterviewMode.cleanupExpiredSessions 2000000
        [("sid", InterviewMode.createSession "sid" 0 "p")]) "sid" = none ∧
    (InterviewMode.updateSessionM "sid" "" 2000001
      (InterviewMode.cleanupExpiredSessions 2000000
        [("sid", InterviewMode.createSession "sid" 0 "p")])).1 = none ∧
    InterviewMode.getSessionStatusM "sid"
      (InterviewMode.cleanupExpiredSessions 2000000
        [("sid", InterviewMode.createSession "sid" 0 "p")]) = none :=
  C9_expired_session_not_found
    [("sid", InterviewMode.createSession "sid" 0 "p")] "sid"
    (InterviewMode.createSession "sid" 0 "p") 2000000 2000001 ""
    (by decide) (by decide) (by decide)

namespace Templates

/-- The record of named sections built by `parseStructuredResponse`, with
the default value of every field as initialised at the top of the
function. -/
structure Sections where
  understanding : String := ""
  brute_force : String := ""
  optimized : String := ""
  time_complexity : String := ""
  space_complexity : String := ""
  edge_cases : List String := []
  java_code : String := ""
  dry_run : String := ""
  follow_up_questions : List String := []
  common_mistakes : List String := []
  variations : List String := []
deriving DecidableEq

/-- Find the earliest occurrence of any of the stop literals in `cs`
(the alternation inside a lookahead picks whichever alternative matches
first in the text). -/
def earliestStop (stops : List (List Char)) (cs : List Char) : Option Nat :=
  stops.foldr
    (fun stop acc =>
      match findSub stop cs, acc with
      | none, a => a
      | some i, none => some i
      | some i, some j => some (Nat.min i j))
    none

/-- Shared capture step of the section regexes: consume the greedy `\s*`
after the matched heading, then capture lazily up to the earliest stop
literal or to the end of the text.  `origRest` is the original-case text
after the heading and `lowRest` its lowercased image (the `i` flag makes
matching case-insensitive while captures keep the original text); the
stop literals are given lowercased. -/
def captureUpToStops (origRest lowRest : List Char) (stops : List (List Char)) : String :=
  let nws := (lowRest.takeWhile Char.isWhitespace).length
  let cap := origRest.drop nws
  let lowCap := lowRest.drop nws
  match earliestStop stops lowCap with
  | none => String.mk cap
  | some j => String.mk (cap.take j)

/-- A fixed-heading section regex of `parseStructuredResponse`, of the
shape heading literal, `\s*`, lazy capture, lookahead stop-or-end, flag
`i`.  The leftmost heading occurrence wins because the capture can always
extend to the end of the text. -/
def matchSection (header : String) (stops : List String) (s : String) : Option String :=
  let low := lowerChars s.data
  match findSub (lowerChars header.data) low with
  | none => none
  | some i =>
    some (captureUpToStops (s.data.drop (i + header.data.length))
      (low.drop (i + header.data.length))
      (stops.map (fun t => lowerChars t.data)))

/-- Match a lowercased literal word followed by an optional `s` (the
`WORDS?` part of the flexible headings); return the consumed length. -/
def litOptS (word : List Char) (low : List Char) : Option Nat :=
  if litPre word low then
    match low.drop word.length with
    | 's' :: _ => some (word.length + 1)
    | _ => some (word.length)
  else none

/-- The word part of the flexible follow-up heading,
`FOLLOW[- ]?UP QUESTIONS?`: the optional separator is exactly a dash or a
space, and when it is present but `up` does not follow, dropping it
cannot help because the separator character is not `u`. -/
def followUpWord (low : List Char) : Option Nat :=
  if litPre "follow".data low then
    match low.drop 6 with
    | c :: rest =>
      if c = '-' ∨ c = ' ' then
        match litOptS "up question".data rest with
        | some n => some (6 + 1 + n)
        | none => none
      else
        match litOptS "up question".data (c :: rest) with
        | some n => some (6 + n)
        | none => none
    | [] => none
  else none

/-- Match the flexible heading shape `###?\s*\d*\.?\s*` followed by the
given word matcher, at the head of the lowercased text; return the
consumed length.  Each quantifier is matched greedily; no backtracking is
needed because the character classes of consecutive parts are disjoint
and the word begins with a letter. -/
def matchFlexHeadingLen (wordMatch : List Char → Option Nat) (low : List Char) : Option Nat :=
  match low with
  | '#' :: '#' :: rest =>
    let h3 : Nat := match rest with | '#' :: _ => 1 | _ => 0
    let r1 := rest.drop h3
    let w1 := (r1.takeWhile Char.isWhitespace).length
    let r2 := r1.drop w1
    let d1 := (r2.takeWhile Char.isDigit).length
    let r3 := r2.drop d1
    let dot : Nat := match r3 with | '.' :: _ => 1 | _ => 0
    let r4 := r3.drop dot
    let w2 := (r4.takeWhile Char.isWhitespace).length
    let r5 := r4.drop w2
    match wordMatch r5 with
    | some wlen => some (2 + h3 + w1 + d1 + dot + w2 + wlen)
    | none => none
  | _ => none

/-- Scan left to right for the first position where the flexible heading
matches; return the start position and the consumed length. -/
def scanFlexGo (wordMatch : List Char → Option Nat) : List Char → Nat → Option (Nat × Nat)
  | [], _ => none
  | c :: rest, pos =>
    match matchFlexHeadingLen wordMatch (c :: rest) with
    | some n => some (pos, n)
    | none => scanFlexGo wordMatch rest (pos + 1)

/-- A flexible-heading section regex of `parseStructuredResponse`, of the
shape `###?\s*\d*\.?\s*WORD…\s*`, lazy capture, lookahead stop-or-end,
flag `i`. -/
def matchFlexSection (wordMatch : List Char → Option Nat) (stops : List String)
    (s : String) : Option String :=
  let low := lowerChars s.data
  match scanFlexGo wordMatch low 0 with
  | none => none
  | some (start, consumed) =>
    some (captureUpToStops (s.data.drop (start + consumed))
      (low.drop (start + consumed))
      (stops.map (fun t => lowerChars t.data)))

/-- A fenced-block regex such as the java or json fence: opener literal
(case-sensitive, no `i` flag), greedy `\s*`, lazy capture, then a
mandatory closing triple backtick.  When no closing fence follows the
first opener there is no match at all (a later opener would itself
contain a closing fence for the first, so the leftmost opener decides). -/
def matchFence (opener : String) (s : String) : Option String :=
  match findSub opener.data s.data with
  | none => none
  | some i =>
    let rest := (s.data.drop (i + opener.data.length)).dropWhile Char.isWhitespace
    match findSub "```".data rest with
    | none => none
    | some j => some (String.mk (rest.take j))

/-- The list-line filter of the list-valued sections: the trimmed line
must start with a dash, bullet, asterisk or digit. -/
def isListItemLine (l : List Char) : Bool :=
  match trimChars l with
  | [] => false
  | c :: _ => c = '-' || c = '•' || c = '*' || c.isDigit

/-- The marker in the leading character class of the strip regex. -/
def isMarkerChar (c : Char) : Bool :=
  c = '-' || c = '•' || c = '*' || c = '.' || c.isDigit

/-- The marker strip of the list-valued sections: remove one maximal
nonempty leading run of marker characters followed by whitespace; a line
starting with any other character (including leading indentation) is
left unchanged, exactly as the anchored replace of the source behaves. -/
def stripMarker (l : List Char) : List Char :=
  match l with
  | [] => []
  | c :: _ => if isMarkerChar c then (l.dropWhile isMarkerChar).dropWhile Char.isWhitespace else l

/-- The shared line processing of the list-valued sections: split the
captured block on newlines, keep the list-looking lines, strip the
leading marker, trim, and drop empties. -/
def extractListItems (block : String) : List String :=
  let lines := splitChar '\n' block.data
  let kept := lines.filter isListItemLine
  (kept.map (fun l => String.mk (trimChars (stripMarker l)))).filter
    (fun l => l.data.length > 0)

/-- The alternation head of the fallback follow-up regex:
`interview`, `follow[-\s]?up` or `what if`, tried in order at one
position; returns the consumed length. -/
def altHeadLen (low : List Char) : Option Nat :=
  if litPre "interview".data low then some 9
  else if litPre "follow".data low then
    match low.drop 6 with
    | c :: rest =>
      if c = '-' ∨ c.isWhitespace then
        if litPre "up".data rest then some 9 else none
      else
        if litPre "up".data (c :: rest) then some 8 else none
    | [] => none
  else if litPre "what if".data low then some 7
  else none

/-- Last index of a character in a list, for the backtracking of the
greedy `[^\n]*` before the colon. -/
def findLastIdx (ch : Char) : List Char → Option Nat
  | [] => none
  | c :: cs =>
    match findLastIdx ch cs with
    | some i => some (i + 1)
    | none => if c = ch then some 0 else none

/-- Scan for the fallback follow-up pattern
`(?:interview|follow[-\s]?up|what if)[^\n]*:`: at each start position try
the alternation, then let the greedy `[^\n]*` run to the end of the line
and backtrack to the last colon on it; without a colon the start position
fails and the scan advances. -/
def scanAltGo : List Char → Nat → Option (Nat × Nat)
  | [], _ => none
  | c :: rest, pos =>
    match altHeadLen (c :: rest) with
    | some n =>
      let line := ((c :: rest).drop n).takeWhile (fun x => !(x = '\n'))
      match findLastIdx ':' line with
      | some i => some (pos, n + i + 1)
      | none => scanAltGo rest (pos + 1)
    | none => scanAltGo rest (pos + 1)

/-- The fallback follow-up capture:
`\s*` then lazy capture up to the earliest of the stops `###`, `common`,
`variation`, or the end of the text, flag `i`. -/
def altFollowUpCapture (s : String) : Option String :=
  let low := lowerChars s.data
  match scanAltGo low 0 with
  | none => none
  | some (start, consumed) =>
    some (captureUpToStops (s.data.drop (start + consumed))
      (low.drop (start + consumed))
      ["###".data, "common".data, "variation".data])

/-- The body of the `try` block of `parseStructuredResponse`, from the
source top to bottom: the five fixed-heading string sections, the
flexible list-valued sections, the java fence, the dry-run section, and
the fallback follow-up heuristic when the primary one found nothing. -/
def parseSections (llmResponse : String) : Sections :=
  let understanding :=
    match matchSection "### 1. PROBLEM UNDERSTANDING" ["### 2."] llmResponse with
    | some c => jsTrim c
    | none => ""
  let brute :=
    match matchSection "### 2. BRUTE FORCE APPROACH" ["### 3."] llmResponse with
    | some c => jsTrim c
    | none => ""
  let optimized :=
    match matchSection "### 3. OPTIMIZED APPROACH" ["### 4."] llmResponse with
    | some c => jsTrim c
    | none => ""
  let time :=
    match matchSection "### 4. TIME COMPLEXITY" ["### 5."] llmResponse with
    | some c => jsTrim c
    | none => ""
  let space :=
    match matchSection "### 5. SPACE COMPLEXITY" ["### 6."] llmResponse with
    | some c => jsTrim c
    | none => ""
  let edges :=
    match matchFlexSection (litOptS "edge case".data) ["### 7.", "###"] llmResponse with
    | some c => extractListItems c
    | none => []
  let javaCode :=
    match matchFence "```java" llmResponse with
    | some c => jsTrim c
    | none => ""
  let dryRun :=
    match matchSection "### 8. DRY RUN EXAMPLE" ["### 9."] llmResponse with
    | some c => jsTrim c
    | none => ""
  let followUps :=
    match matchFlexSection followUpWord ["###"] llmResponse with
    | some c => extractListItems c
    | none => []
  let mistakes :=
    match matchFlexSection (litOptS "common mistake".data) ["###"] llmResponse with
    | some c => extractListItems c
    | none => []
  let variations :=
    match matchFlexSection (litOptS "problem variation".data) ["###"] llmResponse with
    | some c => extractListItems c
    | none => []
  let followUps :=
    if followUps.length = 0 then
      match altFollowUpCapture llmResponse with
      | some c => (extractListItems c).take 5
      | none => []
    else followUps
  { understanding := understanding
    brute_force := brute
    optimized := optimized
    time_complexity := time
    space_complexity := space
    edge_cases := edges
    java_code := javaCode
    dry_run := dryRun
    follow_up_questions := followUps
    common_mistakes := mistakes
    variations := variations }

/-- The try/catch shell of `parseStructuredResponse`: the body either
completes with the finished sections or raises carrying the sections
object as mutated so far (the catch closes over the same object); the
catch then overwrites only the understanding field with the whole raw
text and the function returns normally. -/
def parseWithRecovery (body : String → Except Sections Sections) (raw : String) : Sections :=
  match body raw with
  | .ok s => s
  | .error p => { p with understanding := raw }

/-- `parseStructuredResponse` from `promptTemplates.js`: the total body
wrapped in the recovery shell. -/
def parseStructuredResponse (raw : String) : Sections :=
  parseWithRecovery (fun r => Except.ok (parseSections r)) raw

end Templates

namespace Templates

/-- A JSON value, as produced by the JavaScript JSON parser. -/
inductive Json where
  | null
  | bool (b : Bool)
  | num (q : ℚ)
  | str (s : String)
  | arr (items : List Json)
  | obj (fields : List (String × Json))

/-- The fixed default record returned by `parseEvaluationResponse` on any
parse failure: every sub-score 0, every feedback the unable-to-evaluate
marker, an explanatory suggestion, and the raw text attached. -/
def defaultEvaluation (raw : String) : Json :=
  .obj [
    ("score", .num 0),
    ("breakdown", .obj [
      ("correctness", .obj [("score", .num 0), ("feedback", .str "Unable to evaluate")]),
      ("time_complexity", .obj [("score", .num 0), ("feedback", .str "Unable to evaluate"),
        ("detected", .str "Unknown")]),
      ("space_complexity", .obj [("score", .num 0), ("feedback", .str "Unable to evaluate"),
        ("detected", .str "Unknown")]),
      ("code_quality", .obj [("score", .num 0), ("feedback", .str "Unable to evaluate")]),
      ("edge_cases", .obj [("score", .num 0), ("feedback", .str "Unable to evaluate"),
        ("missing", .arr [])])
    ]),
    ("suggestions", .arr [.str "Unable to parse evaluation response"]),
    ("optimal_solution_hint", .str ""),
    ("raw_response", .str raw)
  ]

/-- `parseEvaluationResponse` from `promptTemplates.js`.  The JavaScript
built-in JSON parser is the external `jsonParse` collaborator (`error`
models the exception it throws on malformed input).  When a json fence is
found, its content is parsed and returned unchanged; otherwise the whole
text is parsed; any parse exception reaches the catch, which returns the
fixed default record instead of rethrowing. -/
def parseEvaluationResponse (jsonParse : String → Except String Json)
    (llmResponse : String) : Json :=
  match matchFence "```json" llmResponse with
  | some inner =>
    match jsonParse inner with
    | .ok v => v
    | .error _ => defaultEvaluation llmResponse
  | none =>
    match jsonParse llmResponse with
    | .ok v => v
    | .error _ => defaultEvaluation llmResponse

end Templates

/-- C5: the parse-analysis function never propagates an error to its
caller: for the actual (total) body it returns the parsed sections, and
for any body that raises, the catch returns normally with the entire raw
text in the understanding field (the other fields keeping the values the
body had assigned, still their defaults at the only statement that can
throw); applied to the empty string it returns the record with every
field at its default. -/
theorem C5_parse_structured_never_throws :
    (∀ (body : String → Except Templates.Sections Templates.Sections)
       (raw : String) (p : Templates.Sections),
        body raw = Except.error p →
        Templates.parseWithRecovery body raw = { p with understanding := raw }) ∧
    (∀ (body : String → Except Templates.Sections Templates.Sections) (raw : String),
        (∃ s, body raw = Except.ok s ∧ Templates.parseWithRecovery body raw = s) ∨
        (∃ p, body raw = Except.error p ∧
          (Templates.parseWithRecovery body raw).understanding = raw)) ∧
    (∀ (raw : String),
        Templates.parseStructuredResponse raw =
          Templates.parseSections raw) ∧
    Templates.parseStructuredResponse "" =
      { understanding := "", brute_force := "", optimized := "", time_complexity := "",
        space_complexity := "", edge_cases := [], java_code := "", dry_run := "",
        follow_up_questions := [], common_mistakes := [], variations := [] } := by
  refine ⟨?_, ?_, ?_, ?_⟩
  · intro body raw p h
    simp [Templates.parseWithRecovery, h]
  · intro body raw
    match h : body raw with
    | .ok s => exact Or.inl ⟨s, rfl, by simp [Templates.parseWithRecovery, h]⟩
    | .error p => exact Or.inr ⟨p, rfl, by simp [Templates.parseWithRecovery, h]⟩
  · intro raw
    rfl
  · decide

/-- Witness for C5: a body raising with the sections still at their
defaults returns the raw text in the understanding field and defaults
everywhere else. -/
theorem C5_parse_structured_never_throws_witness :
    Templates.parseWithRecovery (fun _ => Except.error {}) "raw model reply" =
      { understanding := "raw model reply" } :=
  C5_parse_structured_never_throws.1 (fun _ => Except.error {}) "raw model reply" {} rfl

/-- C6: the parse-evaluation function returns the parsed value of a
fenced json block unchanged; on any parse failure (of the fenced block,
or of the whole text when no fence exists) it returns the fixed default
record with every sub-score 0, the unable-to-evaluate feedback and the
raw text attached; and for every input it returns either a parsed value
or that default, never propagating the parse exception. -/
theorem C6_parse_evaluation_response
    (jp : String → Except String Templates.Json) (raw : String) :
    (∀ inner v, Templates.matchFence "```json" raw = some inner →
      jp inner = Except.ok v →
      Templates.parseEvaluationResponse jp raw = v) ∧
    (∀ inner e, Templates.matchFence "```json" raw = some inner →
      jp inner = Except.error e →
      Templates.parseEvaluationResponse jp raw = Templates.defaultEvaluation raw) ∧
    (∀ e, Templates.matchFence "```json" raw = none →
      jp raw = Except.error e →
      Templates.parseEvaluationResponse jp raw = Templates.defaultEvaluation raw) ∧
    ((∃ v, Templates.parseEvaluationResponse jp raw = v ∧
        (jp raw = Except.ok v ∨ (∃ inner, Templates.matchFence "```json" raw = some inner ∧
          jp inner = Except.ok v))) ∨
      Templates.parseEvaluationResponse jp raw = Templates.defaultEvaluation raw) := by
  refine ⟨?_, ?_, ?_, ?_⟩
  · intro inner v hf hok
    simp [Templates.parseEvaluationResponse, hf, hok]
  · intro inner e hf herr
    simp [Templates.parseEvaluationResponse, hf, herr]
  · intro e hf herr
    simp [Templates.parseEvaluationResponse, hf, herr]
  · match hf : Templates.matchFence "```json" raw with
    | some inner =>
      match hok : jp inner with
      | .ok v =>
        exact Or.inl ⟨v, by simp [Templates.parseEvaluationResponse, hf, hok],
          Or.inr ⟨inner, rfl, hok⟩⟩
      | .error e =>
        exact Or.inr (by simp [Templates.parseEvaluationResponse, hf, hok])
    | none =>
      match hok : jp raw with
      | .ok v =>
        exact Or.inl ⟨v, by simp [Templates.parseEvaluationResponse, hf, hok], Or.inl rfl⟩
      | .error e =>
        exact Or.inr (by simp [Templates.parseEvaluationResponse, hf, hok])

/-- Witness for C6: a reply holding a fenced json block whose parsed
value is returned unchanged, and an unparsable reply yielding the
default record. -/
theorem C6_parse_evaluation_response_witness :
    Templates.parseEvaluationResponse (fun s => Except.ok (Templates.Json.str s))
      "```json 42 ```" = Templates.Json.str "42 " ∧
    Templates.parseEvaluationResponse (fun _ => Except.error "bad json")
      "no json here" = Templates.defaultEvaluation "no json here" := by
  constructor
  · exact (C6_parse_evaluation_response (fun s => Except.ok (Templates.Json.str s))
      "```json 42 ```").1 "42 " (Templates.Json.str "42 ") (by decide) rfl
  · exact (C6_parse_evaluation_response (fun _ => Except.error "bad json")
      "no json here").2.2.1 "bad json" (by decide) rfl
